import Mathlib

/-!
Shallow embedding of the `buaa-daily-checkin` Cloudflare Worker
(`src/index.ts`): a Telegram bot that stores per-user check-in
configuration in a KV namespace and runs a periodic sweep that performs
a campus check-in for every user whose configured time matches the
current time (UTC+8).

Modelling conventions:
* JS numbers that the program only ever treats as integers
  (chat ids, hours, minutes, skip counters) are modelled as `Int`.
* Coordinates and the results of JS string-to-number coercion are
  modelled as exact rationals (`Rat`); IEEE-754 rounding is not modelled.
* The KV namespace is an association list from the numeric part of the
  `user:<id>` key to the stored value.  A stored value is either
  `conforming info` (JSON whose field structure matches the `UserInfo`
  io-ts codec, with the field values carried in `info`) or `malformed`
  (JSON that fails the codec structurally).  The literal-union codecs
  `checkin_hh` / `checkin_mm` are checked by `decodeUserInfo`, so a
  `conforming` value with an out-of-domain `hh`/`mm` still fails to
  decode, exactly as in the source.
* Network effects (Telegram messages, portal check-in submissions) are
  recorded as data: a list of `Notification`s and the list of records
  for which `checkin(env, info)` was invoked.  The bodies of those
  network calls are external I/O and are not modelled further.
-/

namespace Buaa

/-- The `TelegramMessageLocation` codec (src/index.ts:93-96): a coordinate pair. -/
structure Location where
  longitude : Rat
  latitude : Rat
deriving DecidableEq, Repr

/-- The field contents of a stored user record, mirroring the `UserInfo`
io-ts codec (src/index.ts:98-111) field for field. -/
structure UserInfo where
  username : String
  password : String
  chat_id : Int
  hh : Int
  mm : Int
  skip : Int
  area : String
  city : String
  province : String
  address : String
  location : Location
  in_campus : Bool
deriving DecidableEq, Repr

/-- A value stored in the KV namespace under a `user:<id>` key:
either JSON with the `UserInfo` field structure, or structurally
malformed JSON. -/
inductive StoredVal
  | conforming (info : UserInfo)
  | malformed
deriving DecidableEq, Repr

/-- The error classes thrown by the worker (src/index.ts:5-66),
as a closed sum. -/
inductive Err
  | userNotFound (id : Int)
  | invalidUserInfo
  | loginError (msg : String)
  | wrongCommand (command : String)
  | wrongCheckinTime (checkin_time : String)
  | invalidGaodeResp
deriving DecidableEq, Repr

/-- An outbound Telegram message (`send_message_to` /
`check_with_user`).  `record` stands for the pretty-printed JSON of a
user record sent by `check_with_user` (src/index.ts:256-261); the JSON
text rendering itself is not modelled, the record it serializes is. -/
inductive Notification
  | text (chat_id : Int) (msg : String)
  | record (chat_id : Int) (info : UserInfo)
deriving DecidableEq, Repr

/-- The KV namespace restricted to `user:` keys: the numeric id from
the key, mapped to the stored value. -/
abbrev KV := List (Int × StoredVal)

/-- Model of `env.kv.get` for key `user:<id>`. -/
def kvGet (kv : KV) (id : Int) : Option StoredVal :=
  match kv with
  | [] => none
  | (k, v) :: rest => if k = id then some v else kvGet rest id

/-- Model of `env.kv.put` for key `user:<id>` (full overwrite). -/
def kvPut (kv : KV) (id : Int) (v : StoredVal) : KV :=
  match kv with
  | [] => [(id, v)]
  | (k, w) :: rest => if k = id then (k, v) :: rest else (k, w) :: kvPut rest id v

/-- Model of `env.kv.delete` for key `user:<id>` (idempotent). -/
def kvDelete (kv : KV) (id : Int) : KV :=
  match kv with
  | [] => []
  | (k, w) :: rest => if k = id then kvDelete rest id else (k, w) :: kvDelete rest id

/-- The ids of the keys returned by `env.kv.list({prefix: "user:"})`
(the sweep parses the id back out of each key name,
src/index.ts:271-272). -/
def kvKeys (kv : KV) : List Int := kv.map (·.1)

/-- The `checkin_hh` literal union codec (src/index.ts:84-89): the
decoded hour must be exactly one of 16, 17, 18, 19. -/
def validHH (h : Int) : Bool := h == 16 || h == 17 || h == 18 || h == 19

/-- The `checkin_mm` literal union codec (src/index.ts:91): the decoded
minute must be exactly 0 or 30. -/
def validMM (m : Int) : Bool := m == 0 || m == 30

/-- Model of `UserInfo.decode` (io-ts): structurally malformed JSON fails, and
JSON with the right structure fails unless `hh`/`mm` lie in the literal
unions `checkin_hh`/`checkin_mm`. -/
def decodeUserInfo : StoredVal → Except Err UserInfo
  | .malformed => .error .invalidUserInfo
  | .conforming info =>
    if validHH info.hh && validMM info.mm then .ok info else .error .invalidUserInfo

/-- Model of `info_of(env, id)` (src/index.ts:243-254): look the record up by
key, throw `UserNotFound` if absent, decode, throw `InvalidUserInfo`
if the decode fails. -/
def info_of (kv : KV) (id : Int) : Except Err UserInfo :=
  match kvGet kv id with
  | none => .error (.userNotFound id)
  | some v => decodeUserInfo v

/-- Model of `check_with_user(env, id)` (src/index.ts:256-261): re-fetch the
record for `id` and send its JSON to the record's own `chat_id`. -/
def check_with_user (kv : KV) (id : Int) : Except Err Notification :=
  (info_of kv id).map fun info => .record info.chat_id info

/-! ### Elementary KV lemmas -/

theorem kvGet_put_self (kv : KV) (id : Int) (v : StoredVal) :
    kvGet (kvPut kv id v) id = some v := by
  induction kv with
  | nil => simp [kvGet, kvPut]
  | cons hd tl ih =>
    obtain ⟨k, w⟩ := hd
    by_cases h : k = id <;> simp [kvGet, kvPut, h, ih]

theorem kvGet_put_ne (kv : KV) (id j : Int) (v : StoredVal) (h : id ≠ j) :
    kvGet (kvPut kv id v) j = kvGet kv j := by
  induction kv with
  | nil => simp [kvGet, kvPut, h]
  | cons hd tl ih =>
    obtain ⟨k, w⟩ := hd
    by_cases hk : k = id
    · subst hk; simp [kvGet, kvPut, h]
    · simp [kvGet, kvPut, hk, ih]

theorem kvGet_delete_self (kv : KV) (id : Int) :
    kvGet (kvDelete kv id) id = none := by
  induction kv with
  | nil => simp [kvGet, kvDelete]
  | cons hd tl ih =>
    obtain ⟨k, w⟩ := hd
    by_cases h : k = id <;> simp [kvGet, kvDelete, h, ih]

theorem kvGet_delete_ne (kv : KV) (id j : Int) (h : id ≠ j) :
    kvGet (kvDelete kv id) j = kvGet kv j := by
  induction kv with
  | nil => simp [kvDelete]
  | cons hd tl ih =>
    obtain ⟨k, w⟩ := hd
    by_cases hk : k = id
    · subst hk; simp [kvGet, kvDelete, h, ih, Ne.symm h]
    · simp [kvGet, kvDelete, hk, ih]

theorem info_of_ok (kv : KV) (id : Int) (i : UserInfo)
    (h : info_of kv id = .ok i) :
    kvGet kv id = some (.conforming i) ∧ validHH i.hh = true ∧ validMM i.mm = true := by
  unfold info_of at h
  cases hg : kvGet kv id with
  | none => simp [hg] at h
  | some v =>
    cases v with
    | malformed => simp [hg, decodeUserInfo] at h
    | conforming j =>
      simp only [hg, decodeUserInfo] at h
      by_cases hv : validHH j.hh && validMM j.mm
      · simp only [hv, if_pos] at h
        cases h
        exact ⟨rfl, by simpa [Bool.and_eq_true] using hv⟩
      · simp [hv] at h

theorem info_of_put_self (kv : KV) (id : Int) (i : UserInfo)
    (h1 : validHH i.hh = true) (h2 : validMM i.mm = true) :
    info_of (kvPut kv id (.conforming i)) id = .ok i := by
  simp [info_of, kvGet_put_self, decodeUserInfo, h1, h2]

theorem info_of_put_ne (kv : KV) (id j : Int) (v : StoredVal) (h : id ≠ j) :
    info_of (kvPut kv id v) j = info_of kv j := by
  simp [info_of, kvGet_put_ne kv id j v h]

/-! ### JavaScript string-to-number coercion

`/checkin_at` feeds `+parts[0]` and `+parts[1]` to the literal-union
codecs (src/index.ts:364-365).  The unary `+` on a string is
ECMAScript `ToNumber`.  It is modelled here as `Option Rat`:
`none` stands for `NaN` and for `±Infinity` (none of which compare
equal to any of the finitely many literals the codecs test against),
`some q` for the finite value.  Values are exact rationals; IEEE-754
rounding of extreme decimal expansions is not modelled.  The recognized
whitespace is the ASCII subset of `StrWhiteSpace` plus NBSP. -/

/-- Whitespace trimmed by `ToNumber` before parsing (ASCII subset + NBSP). -/
def isJsWS (c : Char) : Bool :=
  c == ' ' || c == '\t' || c == '\n' || c == '\r' || c == '\x0b' || c == '\x0c' || c == '\xa0'

/-- Trim JS whitespace from both ends. -/
def trimJsWS (cs : List Char) : List Char :=
  ((cs.dropWhile isJsWS).reverse.dropWhile isJsWS).reverse

/-- Decimal digit value. -/
def decDigitVal? (c : Char) : Option Nat :=
  if c.isDigit then some (c.toNat - 48) else none

/-- Hexadecimal digit value (case-insensitive). -/
def hexDigitVal? (c : Char) : Option Nat :=
  if c.isDigit then some (c.toNat - 48)
  else if 'a' ≤ c ∧ c ≤ 'f' then some (c.toNat - 87)
  else if 'A' ≤ c ∧ c ≤ 'F' then some (c.toNat - 55)
  else none

/-- Octal digit value. -/
def octDigitVal? (c : Char) : Option Nat :=
  if '0' ≤ c ∧ c ≤ '7' then some (c.toNat - 48) else none

/-- Binary digit value. -/
def binDigitVal? (c : Char) : Option Nat :=
  if c == '0' then some 0 else if c == '1' then some 1 else none

/-- Value of a non-empty all-digit string in the given base;
`none` if empty or any character is not a digit of the base. -/
def baseDigitsVal? (base : Nat) (dv : Char → Option Nat) (cs : List Char) : Option Nat :=
  match cs with
  | [] => none
  | _ =>
    cs.foldl
      (fun acc c =>
        match acc, dv c with
        | some a, some d => some (a * base + d)
        | _, _ => none)
      (some 0)

/-- Value of a non-empty decimal digit string. -/
def digitsVal? (cs : List Char) : Option Nat := baseDigitsVal? 10 decDigitVal? cs

/-- Split at the first occurrence of `c`: the part before it and,
when present, the part after it. -/
def splitAtChar (c : Char) : List Char → List Char × Option (List Char)
  | [] => ([], none)
  | x :: rest =>
    if x == c then ([], some rest)
    else
      let (a, b) := splitAtChar c rest
      (x :: a, b)

/-- Unsigned decimal mantissa: `Digits`, `Digits.Digits?`, or `.Digits`. -/
def parseMantissa (cs : List Char) : Option Rat :=
  match splitAtChar '.' cs with
  | (ip, none) => (digitsVal? ip).map fun n => (n : Rat)
  | (ip, some fp) =>
    if ip = [] then
      (digitsVal? fp).map fun f => (f : Rat) / ((10 : Rat) ^ fp.length)
    else
      match digitsVal? ip with
      | none => none
      | some i =>
        if fp = [] then some (i : Rat)
        else (digitsVal? fp).map fun f => (i : Rat) + (f : Rat) / ((10 : Rat) ^ fp.length)

/-- Signed exponent digits. -/
def parseExp? : List Char → Option Int
  | '+' :: r => (digitsVal? r).map fun n => (n : Int)
  | '-' :: r => (digitsVal? r).map fun n => -(n : Int)
  | r => (digitsVal? r).map fun n => (n : Int)

/-- Scale a mantissa by a power of ten. -/
def applyExp (m : Rat) (k : Int) : Rat :=
  if 0 ≤ k then m * (10 : Rat) ^ k.toNat else m / (10 : Rat) ^ (-k).toNat

/-- The grammar `StrDecimalLiteral`: optional sign, mantissa, optional exponent. -/
def parseSignedDec (cs : List Char) : Option Rat :=
  let sr : Bool × List Char :=
    match cs with
    | '+' :: r => (false, r)
    | '-' :: r => (true, r)
    | r => (false, r)
  let r := sr.2.map fun c => if c == 'E' then 'e' else c
  match splitAtChar 'e' r with
  | (mant, none) => (parseMantissa mant).map fun m => if sr.1 then -m else m
  | (mant, some ex) =>
    match parseMantissa mant, parseExp? ex with
    | some m, some k => some (applyExp (if sr.1 then -m else m) k)
    | _, _ => none

/-- ECMAScript `ToNumber` on a string (the unary `+` in
src/index.ts:364-365), under the conventions described above.
The empty (all-whitespace) string coerces to `0`. -/
def jsToNumber (s : String) : Option Rat :=
  let cs := trimJsWS s.toList
  if cs.isEmpty then some 0
  else if cs = "Infinity".toList ∨ cs = "+Infinity".toList ∨ cs = "-Infinity".toList then none
  else
    match cs with
    | '0' :: x :: r =>
      if x == 'x' || x == 'X' then (baseDigitsVal? 16 hexDigitVal? r).map fun n => (n : Rat)
      else if x == 'o' || x == 'O' then (baseDigitsVal? 8 octDigitVal? r).map fun n => (n : Rat)
      else if x == 'b' || x == 'B' then (baseDigitsVal? 2 binDigitVal? r).map fun n => (n : Rat)
      else parseSignedDec cs
    | _ => parseSignedDec cs

/-- Model of `checkin_hh.decode(+parts[0])` (src/index.ts:84-89, 364): succeeds
iff the coerced number is exactly one of the hour literals. -/
def decode_checkin_hh : Option Rat → Option Int
  | none => none
  | some q =>
    if q = 16 then some 16
    else if q = 17 then some 17
    else if q = 18 then some 18
    else if q = 19 then some 19
    else none

/-- Model of `checkin_mm.decode(+parts[1])` (src/index.ts:91, 365): succeeds iff
the coerced number is exactly 0 or 30. -/
def decode_checkin_mm : Option Rat → Option Int
  | none => none
  | some q =>
    if q = 0 then some 0
    else if q = 30 then some 30
    else none

theorem decode_checkin_hh_valid (x : Option Rat) (h : Int)
    (hd : decode_checkin_hh x = some h) :
    validHH h = true ∧ (h = 16 ∨ h = 17 ∨ h = 18 ∨ h = 19) := by
  cases x with
  | none => simp [decode_checkin_hh] at hd
  | some q =>
    simp only [decode_checkin_hh] at hd
    split at hd <;> try (cases hd; simp [validHH])
    split at hd <;> try (cases hd; simp [validHH])
    split at hd <;> try (cases hd; simp [validHH])
    split at hd <;> first
      | (cases hd; simp [validHH])
      | simp at hd

theorem decode_checkin_mm_valid (x : Option Rat) (m : Int)
    (hd : decode_checkin_mm x = some m) :
    validMM m = true ∧ (m = 0 ∨ m = 30) := by
  cases x with
  | none => simp [decode_checkin_mm] at hd
  | some q =>
    simp only [decode_checkin_mm] at hd
    split at hd <;> try (cases hd; simp [validMM])
    split at hd <;> first
      | (cases hd; simp [validMM])
      | simp at hd

/-! ### The command handlers (`fetch`, src/index.ts:314-478)

Each handler body is a pure transformer of the KV state producing the
outbound notifications, the records for which `checkin(env, info)` was
invoked, and, when an exception was thrown, the error.  Notifications
listed in `notes` were sent before the error was thrown; `err = none`
means the handler body ran to completion. -/

/-- Model of `String.prototype.split` with a single-character separator and no
limit (the only form the worker uses: `split(" ")` and `split(":")`),
on the character list. -/
def splitOnChar (c : Char) : List Char → List (List Char)
  | [] => [[]]
  | x :: rest =>
    if x == c then [] :: splitOnChar c rest
    else
      match splitOnChar c rest with
      | [] => [[x]]
      | h :: t => (x :: h) :: t

/-- Model of `text.split(sep)` for a single-character `sep`. -/
def jsSplit (sep : Char) (s : String) : List String :=
  (splitOnChar sep s.toList).map fun l => ⟨l⟩

/-- Observable effects of one handler body. -/
structure Effects where
  kv : KV
  notes : List Notification
  checkins : List UserInfo
  err : Option Err
deriving DecidableEq, Repr

/-- Outcome of `login(username, password)` (src/index.ts:142-165):
either the portal session cookies, or a `LoginError` message (covering
an unparseable response, `e == 1`, and a missing `set-cookie` header
alike). -/
inductive LoginOutcome
  | success (cookies : String)
  | failure (msg : String)
deriving DecidableEq, Repr

/-- The record written by `/login` (src/index.ts:337-353): the supplied
credentials, the conversation id, the 17:30 default schedule, skip 0,
in-campus, and the default Beijing-campus address and coordinates. -/
def loginRecord (u p : String) (id : Int) : UserInfo where
  username := u
  password := p
  chat_id := id
  hh := 17
  mm := 30
  skip := 0
  province := "北京市"
  city := "北京市"
  area := "北京市 海淀区"
  address := "北京市海淀区花园路街道北京航空航天大学大运村学生公寓"
  in_campus := true
  location := { longitude := 116.343699, latitude := 39.977847 }

/-- Shared tail of every mutating handler: `check_with_user` on the
conversation id after the `kv.put`. -/
def afterPut (kv : KV) (id : Int) : Effects :=
  match check_with_user kv id with
  | .ok n => ⟨kv, [n], [], none⟩
  | .error e => ⟨kv, [], [], some e⟩

/-- The `/login <user> <pass>` branch (src/index.ts:330-354): exactly
two arguments, authenticate (throwing `LoginError` on failure), then
overwrite the record with `loginRecord` and echo it. -/
def runLogin (auth : String → String → LoginOutcome) (kv : KV) (id : Int)
    (text : String) : Effects :=
  match jsSplit ' ' text with
  | [_, u, p] =>
    match auth u p with
    | .failure m => ⟨kv, [], [], some (.loginError m)⟩
    | .success _ => afterPut (kvPut kv id (.conforming (loginRecord u p id))) id
  | _ => ⟨kv, [], [], some (.wrongCommand text)⟩

/-- The `/checkin_at <time>` branch (src/index.ts:355-372): exactly two
space-separated tokens, exactly two colon-separated parts, both parts
coerced by unary `+` and decoded by the literal-union codecs, then a
read-modify-write of `hh`/`mm` and an echo. -/
def runCheckinAt (kv : KV) (id : Int) (text : String) : Effects :=
  match jsSplit ' ' text with
  | [_, arg] =>
    match jsSplit ':' arg with
    | [p0, p1] =>
      match decode_checkin_hh (jsToNumber p0), decode_checkin_mm (jsToNumber p1) with
      | some h, some m =>
        match info_of kv id with
        | .error e => ⟨kv, [], [], some e⟩
        | .ok info => afterPut (kvPut kv id (.conforming { info with hh := h, mm := m })) id
      | _, _ => ⟨kv, [], [], some (.wrongCheckinTime arg)⟩
    | _ => ⟨kv, [], [], some (.wrongCheckinTime arg)⟩
  | _ => ⟨kv, [], [], some (.wrongCommand text)⟩

/-- The `/info` branch (src/index.ts:373-378): send the current time,
then echo the record. -/
def runInfo (nowH nowM : Int) (kv : KV) (id : Int) : Effects :=
  let timeNote := Notification.text id ("Current Time: " ++ toString nowH ++ ":" ++ toString nowM)
  match check_with_user kv id with
  | .ok n => ⟨kv, [timeNote, n], [], none⟩
  | .error e => ⟨kv, [timeNote], [], some e⟩

/-- The `/skip` branch (src/index.ts:379-383): read-modify-write
incrementing `skip`, then echo. -/
def runSkip (kv : KV) (id : Int) : Effects :=
  match info_of kv id with
  | .error e => ⟨kv, [], [], some e⟩
  | .ok info => afterPut (kvPut kv id (.conforming { info with skip := info.skip + 1 })) id

/-- The `/no_skip` branch (src/index.ts:384-390): decrement `skip` only
when it is positive, write the record back unconditionally, then echo. -/
def runNoSkip (kv : KV) (id : Int) : Effects :=
  match info_of kv id with
  | .error e => ⟨kv, [], [], some e⟩
  | .ok info =>
    let info := if 0 < info.skip then { info with skip := info.skip - 1 } else info
    afterPut (kvPut kv id (.conforming info)) id

/-- The `/checkin` branch (src/index.ts:391-393): fetch the record and
invoke `checkin(env, info)`.  The network interaction inside `checkin`
(portal login, geocode, submission, result message) is external I/O;
only the invocation with the fetched record is recorded. -/
def runCheckin (kv : KV) (id : Int) : Effects :=
  match info_of kv id with
  | .error e => ⟨kv, [], [], some e⟩
  | .ok info => ⟨kv, [], [info], none⟩

/-- The `/delete` branch (src/index.ts:394-396): delete the key, then
`check_with_user` on the now-absent record. -/
def runDelete (kv : KV) (id : Int) : Effects :=
  let kv := kvDelete kv id
  match check_with_user kv id with
  | .ok n => ⟨kv, [n], [], none⟩
  | .error e => ⟨kv, [], [], some e⟩

/-- The `/in_campus` branch (src/index.ts:397-401). -/
def runInCampus (kv : KV) (id : Int) : Effects :=
  match info_of kv id with
  | .error e => ⟨kv, [], [], some e⟩
  | .ok info => afterPut (kvPut kv id (.conforming { info with in_campus := true })) id

/-- The `/out_of_campus` branch (src/index.ts:402-406). -/
def runOutOfCampus (kv : KV) (id : Int) : Effects :=
  match info_of kv id with
  | .error e => ⟨kv, [], [], some e⟩
  | .ok info => afterPut (kvPut kv id (.conforming { info with in_campus := false })) id

/-! ### Geocoding and the inbound-location branch -/

/-- The `city` field of a Gaode regeo response may be a plain string or
a (possibly empty) array of strings (src/index.ts:73). -/
inductive CityField
  | str (s : String)
  | arr (l : List String)
deriving DecidableEq, Repr

/-- The decoded `GaodeResp` fields used by the location branch
(src/index.ts:68-77). -/
structure GaodeRegeo where
  formatted_address : String
  province : String
  city : CityField
  district : String
deriving DecidableEq, Repr

/-- Outcome of the geocode lookup followed by `GaodeResp.decode`. -/
inductive GaodeOutcome
  | ok (g : GaodeRegeo)
  | invalid
deriving DecidableEq, Repr

/-- The expression `typeof city == "string" ? city : province` (src/index.ts:424). -/
def gaodeCity (g : GaodeRegeo) : String :=
  match g.city with
  | .str s => s
  | .arr _ => g.province

/-- The inbound-location branch (src/index.ts:412-435): geocode the
coordinates, throw `InvalidGaodeResp` on a malformed response, then a
read-modify-write of the five location fields and an echo. -/
def runLocation (geo : GaodeOutcome) (kv : KV) (id : Int) (loc : Location) : Effects :=
  match geo with
  | .invalid => ⟨kv, [], [], some .invalidGaodeResp⟩
  | .ok g =>
    let city := gaodeCity g
    let area := city ++ " " ++ g.district
    match info_of kv id with
    | .error e => ⟨kv, [], [], some e⟩
    | .ok info =>
      afterPut
        (kvPut kv id (.conforming
          { info with
            city := city
            province := g.province
            area := area
            address := g.formatted_address
            location := loc }))
        id

/-! ### The scheduler sweep (`do_scheduled`, src/index.ts:263-303) -/

/-- The quantity `info.hh * 60 + info.mm` (src/index.ts:276). -/
def expected_minutes (info : UserInfo) : Int := info.hh * 60 + info.mm

/-- State threaded through the sweep's enumeration loop: the KV store,
the notifications sent so far, and the `users` array of records queued
for the check-in phase. -/
structure SweepState where
  kv : KV
  msgs : List Notification
  users : List UserInfo
deriving DecidableEq, Repr

/-- How the enumeration loop ends: it runs to completion, the `catch`
for `UserNotFound` executes `return` (ending `do_scheduled` early), or
an exception (`InvalidUserInfo` from a corrupt record) is rethrown out
of `do_scheduled`. -/
inductive EnumOutcome
  | done (st : SweepState)
  | earlyRet (st : SweepState)
  | thrown (e : Err) (st : SweepState)
deriving DecidableEq, Repr

/-- The `catch` at src/index.ts:287-293: `UserNotFound` is logged and
`return`s; anything else is rethrown. -/
def sweepAbort (e : Err) (st : SweepState) : EnumOutcome :=
  match e with
  | .userNotFound _ => .earlyRet st
  | _ => .thrown e st

/-- The enumeration loop of `do_scheduled` over the listed key ids
(src/index.ts:269-298).  `cur` is the current time in minutes since
midnight UTC+8.  For each id: fetch and decode the record (aborting per
`sweepAbort` on failure); skip it when the window does not match; when
it matches and `skip > 0`, decrement `skip`, persist, send the two
notifications (the second via `check_with_user` keyed by the record's
`chat_id`, which itself may abort); finally `users.push(info)` runs for
every matching record, with the decremented `skip` when the skip branch
was taken. -/
def sweepEnum (cur : Int) (st : SweepState) : List Int → EnumOutcome
  | [] => .done st
  | id :: rest =>
    match info_of st.kv id with
    | .error e => sweepAbort e st
    | .ok info =>
      if (expected_minutes info - cur).natAbs > 10 then
        sweepEnum cur st rest
      else if 0 < info.skip then
        let info' := { info with skip := info.skip - 1 }
        let kv' := kvPut st.kv id (.conforming info')
        let msgs' := st.msgs ++ [.text info'.chat_id "skip for today"]
        match check_with_user kv' info'.chat_id with
        | .error e => sweepAbort e { kv := kv', msgs := msgs', users := st.users }
        | .ok n =>
          sweepEnum cur
            { kv := kv', msgs := msgs' ++ [n], users := st.users ++ [info'] } rest
      else
        sweepEnum cur { st with users := st.users ++ [info] } rest

/-- Observable result of one `do_scheduled` run: the final store, the
notifications sent, the records for which `checkin(env, user)` is
invoked by the phase-2 loop (src/index.ts:300-302, sequentially in
queue order), and the exception when one was rethrown. -/
structure SweepResult where
  kv : KV
  msgs : List Notification
  checkins : List UserInfo
  err : Option Err
deriving DecidableEq, Repr

/-- Model of `do_scheduled(env)` (src/index.ts:263-303): enumerate all `user:`
keys, then check in every queued user.  An early `return` or a thrown
exception both end the function before the check-in loop runs. -/
def do_scheduled (cur : Int) (kv : KV) : SweepResult :=
  match sweepEnum cur ⟨kv, [], []⟩ (kvKeys kv) with
  | .done st => ⟨st.kv, st.msgs, st.users, none⟩
  | .earlyRet st => ⟨st.kv, st.msgs, [], none⟩
  | .thrown e st => ⟨st.kv, st.msgs, [], some e⟩

/-! ### Dispatch and the catch boundary -/

/-- The external inputs consumed by one webhook invocation: the portal
authentication function, the geocode outcome, and the current UTC+8
clock reading. -/
structure Ext where
  auth : String → String → LoginOutcome
  geo : GaodeOutcome
  nowH : Int
  nowM : Int

/-- The `/start` help text (src/index.ts:123-140). -/
def help : String :=
  "\n- /start: help messages\n- /info: stored information about current user\n- /login <username> <password>: store the buaa credential and enable daily checkin\n- /checkin_at <time>: set checkin time, the hours should between 16 and 19, the minutes should be 0 or 30. Default: 17:30. Example: /checkin_at 18:30. \n    - /in_campus: set in campus     \n- /out_of_campus: set out of campus\n- /delete: erase stored information about current user\n- /skip: add one skip day\n- /no_skip: cancel one skip day\n- /checkin: checkin now\n- /schedule: trigger the schedule event\n\nTo update your location, send a location to this bot.\n\nThe bot responds to every valid command with the current stored information about current user in JSON format.\n"

/-- The text-command dispatch chain (src/index.ts:327-411): prefix
matches tested in source order, first match wins, unknown text throws
`WrongCommandError`. -/
def handle_text (ext : Ext) (kv : KV) (id : Int) (text : String) : Effects :=
  if text.startsWith "/start" then ⟨kv, [.text id help], [], none⟩
  else if text.startsWith "/login " then runLogin ext.auth kv id text
  else if text.startsWith "/checkin_at " then runCheckinAt kv id text
  else if text.startsWith "/info" then runInfo ext.nowH ext.nowM kv id
  else if text.startsWith "/skip" then runSkip kv id
  else if text.startsWith "/no_skip" then runNoSkip kv id
  else if text.startsWith "/checkin" then runCheckin kv id
  else if text.startsWith "/delete" then runDelete kv id
  else if text.startsWith "/in_campus" then runInCampus kv id
  else if text.startsWith "/out_of_campus" then runOutOfCampus kv id
  else if text.startsWith "/schedule" then
    let r := do_scheduled (ext.nowH * 60 + ext.nowM) kv
    ⟨r.kv, r.msgs, r.checkins, r.err⟩
  else ⟨kv, [], [], some (.wrongCommand text)⟩

/-- The notification produced by the inner catch chain
(src/index.ts:437-455) for a given error; `InvalidUserInfo` and
`InvalidGaodeResp` fall through to the outer handler and produce no
user notification. -/
def errNotes (id : Int) : Err → List Notification
  | .wrongCommand c => [.text id ("Invalid command: " ++ c ++ "\n" ++ help)]
  | .loginError m => [.text id m]
  | .wrongCheckinTime s =>
    [.text id ("Wrong checkin time: " ++ s ++
      ", hours should between 16 and 19, minutes shoud be 0 or 30.")]
  | .userNotFound _ => [.text id ("User " ++ toString id ++ " does not exist")]
  | .invalidUserInfo => []
  | .invalidGaodeResp => []

/-- Whether the error is consumed by one of the two catch blocks of
`fetch` (src/index.ts:437-475).  `InvalidGaodeResp` matches neither
chain and escapes the handler. -/
def handledErr : Err → Bool
  | .invalidGaodeResp => false
  | _ => true

/-- The webhook-level outcome: final store, notifications (including
the one added by the catch chain), check-in invocations, and the HTTP
response body. -/
structure HandlerResult where
  kv : KV
  notes : List Notification
  checkins : List UserInfo
  response : String
deriving DecidableEq, Repr

/-- Wrap a handler body's effects in the catch boundary
(src/index.ts:437-477): no error yields the `"Success"` response; a
caught error appends its notification and yields `"end with error"`;
an uncaught error escapes the worker. -/
def finalize (id : Int) (e : Effects) : HandlerResult :=
  match e.err with
  | none => ⟨e.kv, e.notes, e.checkins, "Success"⟩
  | some err =>
    if handledErr err then ⟨e.kv, e.notes ++ errNotes id err, e.checkins, "end with error"⟩
    else ⟨e.kv, e.notes, e.checkins, "uncaught exception"⟩

/-! ### Concrete sample data for closed evaluations -/

/-- A sample stored record: conversation 1, window 17:30, one skip day. -/
def alice : UserInfo :=
  ⟨"alice", "pw", 1, 17, 30, 1, "a", "c", "p", "ad", ⟨0, 0⟩, true⟩

/-! ### Claim theorems -/

/-- Claim C1 (code bug): at a matching window (17:30 = minute 1050) with
`skip = 1` the sweep decrements the counter, persists it, and sends the
"skip for today" and record-status notifications — but, because
`users.push(info)` at src/index.ts:286 sits outside the
`if (info.skip > 0)` block, it still queues the user, so the check-in
phase invokes the portal check-in for that user in the same round.  The
`checkins` list of the sweep result is not empty, contradicting the
claim that no check-in is performed. -/
theorem sweep_skip_still_checks_in :
    do_scheduled 1050 [(1, .conforming alice)] =
      ⟨[(1, .conforming { alice with skip := 0 })],
       [.text 1 "skip for today", .record 1 { alice with skip := 0 }],
       [{ alice with skip := 0 }], none⟩ ∧
    (do_scheduled 1050 [(1, .conforming alice)]).checkins ≠ [] :=
  ⟨by decide, by decide⟩

/-- Claim C2: the sweep's window test (src/index.ts:275-279) selects a
record exactly when `|hh*60+mm − cur| ≤ 10`, with the boundary
inclusive: a difference of exactly 10 minutes passes the guard, 11
fails it; a non-matching record is skipped with no state change, and a
matching record (here with no skip days pending) is queued for
check-in. -/
theorem sweep_window (cur : Int) (info : UserInfo) :
    (¬ ((expected_minutes info - cur).natAbs > 10) ↔
       (expected_minutes info - cur).natAbs ≤ 10) ∧
    ((expected_minutes info - cur).natAbs = 10 →
       ¬ ((expected_minutes info - cur).natAbs > 10)) ∧
    ((expected_minutes info - cur).natAbs = 11 →
       (expected_minutes info - cur).natAbs > 10) ∧
    (∀ st id rest, info_of st.kv id = .ok info →
      (((expected_minutes info - cur).natAbs > 10 →
          sweepEnum cur st (id :: rest) = sweepEnum cur st rest) ∧
       ((expected_minutes info - cur).natAbs ≤ 10 → info.skip ≤ 0 →
          sweepEnum cur st (id :: rest) =
            sweepEnum cur { st with users := st.users ++ [info] } rest))) := by
  refine ⟨by omega, by omega, by omega, ?_⟩
  intro st id rest h
  constructor
  · intro hgt
    simp only [sweepEnum, h]
    rw [if_pos hgt]
  · intro hle hskip
    have hgt : ¬ ((expected_minutes info - cur).natAbs > 10) := by omega
    have hsk : ¬ (0 < info.skip) := by omega
    simp only [sweepEnum, h]
    rw [if_neg hgt, if_neg hsk]

/-- Witness for `sweep_window`: at current minute 1061 the sample
record's 17:30 window is 11 minutes away, so the sweep leaves the state
untouched and moves on. -/
theorem sweep_window_witness :
    sweepEnum 1061 ⟨[(1, .conforming alice)], [], []⟩ [1] =
      sweepEnum 1061 ⟨[(1, .conforming alice)], [], []⟩ [] := by
  have h := (sweep_window 1061 alice).2.2.2 ⟨[(1, .conforming alice)], [], []⟩ 1 []
    (by rfl)
  exact h.1 (by decide)

/-- Claim C3 (counterexample): the argument `16:` is not of the form
`HH:MM` with `MM ∈ {0,30}` — its minute component is the empty string —
yet `/checkin_at 16:` succeeds (the empty string coerces to `0` under
the unary `+` at src/index.ts:365, which the `checkin_mm` codec
accepts) and overwrites the stored schedule with 16:00, contradicting
the claim that every such argument fails before any write and leaves
the record unchanged. -/
theorem checkin_at_accepts_empty_minute :
    (runCheckinAt [(1, .conforming alice)] 1 "/checkin_at 16:").err = none ∧
    info_of (runCheckinAt [(1, .conforming alice)] 1 "/checkin_at 16:").kv 1 =
      .ok { alice with hh := 16, mm := 0 } ∧
    jsSplit ':' "16:" = ["16", ""] ∧
    alice.hh = 17 ∧ alice.mm = 30 :=
  ⟨by decide, by rfl, by decide, by decide, by decide⟩

/-- Claim C3 (amended): for an existing record, `/checkin_at S` persists
the pair obtained by JS string-to-number coercion of the two
colon-separated parts of `S` whenever both coerced values decode under
the literal-union codecs — the decoded pair always lies in
{16,17,18,19} × {0,30}, so out-of-domain values never reach storage —
and in every other case (wrong token count, wrong part count, a part
whose coercion fails either codec) the command fails with
`WrongCommandError`/`WrongCheckinTime` before any write, leaving the
whole store unchanged. -/
theorem checkin_at_spec (kv : KV) (id : Int) (info : UserInfo) (text : String)
    (hinfo : info_of kv id = .ok info) :
    ((jsSplit ' ' text).length ≠ 2 →
        runCheckinAt kv id text = ⟨kv, [], [], some (.wrongCommand text)⟩) ∧
    (∀ w arg, jsSplit ' ' text = [w, arg] →
      ((jsSplit ':' arg).length ≠ 2 →
          runCheckinAt kv id text = ⟨kv, [], [], some (.wrongCheckinTime arg)⟩) ∧
      (∀ p0 p1, jsSplit ':' arg = [p0, p1] →
        ((decode_checkin_hh (jsToNumber p0) = none ∨
            decode_checkin_mm (jsToNumber p1) = none) →
          runCheckinAt kv id text = ⟨kv, [], [], some (.wrongCheckinTime arg)⟩) ∧
        (∀ h m, decode_checkin_hh (jsToNumber p0) = some h →
            decode_checkin_mm (jsToNumber p1) = some m →
          runCheckinAt kv id text =
            ⟨kvPut kv id (.conforming { info with hh := h, mm := m }),
             [.record info.chat_id { info with hh := h, mm := m }], [], none⟩ ∧
          info_of (kvPut kv id (.conforming { info with hh := h, mm := m })) id =
            .ok { info with hh := h, mm := m } ∧
          (h = 16 ∨ h = 17 ∨ h = 18 ∨ h = 19) ∧ (m = 0 ∨ m = 30)))) := by
  constructor
  · intro hlen
    unfold runCheckinAt
    rcases hsp : jsSplit ' ' text with _ | ⟨a, _ | ⟨b, _ | ⟨c, t⟩⟩⟩ <;>
      simp [hsp] at hlen ⊢
  · intro w arg hsp
    constructor
    · intro hlen
      unfold runCheckinAt
      rw [hsp]
      rcases hp : jsSplit ':' arg with _ | ⟨a, _ | ⟨b, _ | ⟨c, t⟩⟩⟩ <;>
        simp [hp] at hlen ⊢
    · intro p0 p1 hp
      constructor
      · intro hdec
        unfold runCheckinAt
        rw [hsp]
        rcases hdec with hdec | hdec
        · simp [hp, hdec]
        · rcases hh : decode_checkin_hh (jsToNumber p0) with _ | h <;> simp [hp, hh, hdec]
      · intro h m hh hm
        have hvh := decode_checkin_hh_valid _ _ hh
        have hvm := decode_checkin_mm_valid _ _ hm
        have hput : info_of (kvPut kv id (.conforming { info with hh := h, mm := m })) id =
            .ok { info with hh := h, mm := m } :=
          info_of_put_self kv id _ hvh.1 hvm.1
        refine ⟨?_, hput, hvh.2, hvm.2⟩
        unfold runCheckinAt
        rw [hsp]
        simp only [hp, hh, hm, hinfo]
        simp [afterPut, check_with_user, hput, Except.map]

/-- Witness for `checkin_at_spec`: `/checkin_at 18:30` on the sample
record persists exactly the pair (18, 30). -/
theorem checkin_at_spec_witness :
    runCheckinAt [(1, .conforming alice)] 1 "/checkin_at 18:30" =
      ⟨[(1, .conforming { alice with hh := 18, mm := 30 })],
       [.record 1 { alice with hh := 18, mm := 30 }], [], none⟩ := by
  have h := ((checkin_at_spec [(1, .conforming alice)] 1 alice "/checkin_at 18:30"
      (by rfl)).2 "/checkin_at" "18:30" (by rfl)).2 "18" "30" (by rfl)
  exact (h.2 18 30 (by rfl) (by rfl)).1.trans (by decide)

/-- Claim C4: the skip counter of a stored record stays non-negative
under the skip commands: `/skip` increments it by one and persists;
`/no_skip` decrements only when it is positive and is a no-op on zero
(the write-back still happens, with the unchanged record), so it never
produces a negative value; and `/skip` immediately followed by
`/no_skip` restores the record exactly. -/
theorem skip_counter_spec (kv : KV) (id : Int) (info : UserInfo)
    (hinfo : info_of kv id = .ok info) (h0 : 0 ≤ info.skip) :
    (runSkip kv id).err = none ∧
    info_of (runSkip kv id).kv id = .ok { info with skip := info.skip + 1 } ∧
    (runNoSkip (runSkip kv id).kv id).err = none ∧
    info_of (runNoSkip (runSkip kv id).kv id).kv id = .ok info ∧
    (runNoSkip kv id).err = none ∧
    info_of (runNoSkip kv id).kv id =
      .ok { info with skip := if 0 < info.skip then info.skip - 1 else info.skip } ∧
    0 ≤ (if 0 < info.skip then info.skip - 1 else info.skip) := by
  obtain ⟨hget, hvh, hvm⟩ := info_of_ok kv id info hinfo
  have h1 : info_of (kvPut kv id (.conforming { info with skip := info.skip + 1 })) id =
      .ok { info with skip := info.skip + 1 } := info_of_put_self kv id _ hvh hvm
  have hrs : runSkip kv id =
      ⟨kvPut kv id (.conforming { info with skip := info.skip + 1 }),
       [.record info.chat_id { info with skip := info.skip + 1 }], [], none⟩ := by
    simp only [runSkip, hinfo]
    simp [afterPut, check_with_user, h1, Except.map]
  have hback : ({ info with skip := info.skip + 1 - 1 } : UserInfo) = info := by
    have hs : info.skip + 1 - 1 = info.skip := by omega
    rw [hs]
  have h2 : info_of (kvPut (kvPut kv id (.conforming { info with skip := info.skip + 1 })) id
      (.conforming info)) id = .ok info := info_of_put_self _ id _ hvh hvm
  have hrn1 : runNoSkip (runSkip kv id).kv id =
      ⟨kvPut (kvPut kv id (.conforming { info with skip := info.skip + 1 })) id
        (.conforming info), [.record info.chat_id info], [], none⟩ := by
    rw [hrs]
    simp only [runNoSkip, h1]
    rw [if_pos (by omega : (0:Int) < info.skip + 1)]
    rw [hback]
    simp [afterPut, check_with_user, h2, Except.map]
  have hdec : info_of (kvPut kv id
      (.conforming { info with skip := if 0 < info.skip then info.skip - 1 else info.skip }))
      id = .ok { info with skip := if 0 < info.skip then info.skip - 1 else info.skip } :=
    info_of_put_self kv id _ hvh hvm
  have hrn0 : runNoSkip kv id =
      ⟨kvPut kv id
        (.conforming { info with skip := if 0 < info.skip then info.skip - 1 else info.skip }),
       [.record info.chat_id
         { info with skip := if 0 < info.skip then info.skip - 1 else info.skip }],
       [], none⟩ := by
    simp only [runNoSkip, hinfo]
    by_cases hp : 0 < info.skip
    · simp only [if_pos hp]
      have hdec1 : info_of (kvPut kv id (.conforming { info with skip := info.skip - 1 })) id =
          .ok { info with skip := info.skip - 1 } := info_of_put_self kv id _ hvh hvm
      simp [afterPut, check_with_user, hdec1, Except.map]
    · simp only [if_neg hp]
      have hdec2 : info_of (kvPut kv id (.conforming info)) id = .ok info :=
        info_of_put_self kv id info hvh hvm
      simp [afterPut, check_with_user, hdec2, Except.map]
  refine ⟨by rw [hrs], by rw [hrs]; exact h1, by rw [hrn1], by rw [hrn1]; exact h2,
    by rw [hrn0], by rw [hrn0]; exact hdec, by split <;> omega⟩

/-- Witness for `skip_counter_spec`: on the sample record (skip = 1)
`/skip` and then `/no_skip` restore the stored record. -/
theorem skip_counter_spec_witness :
    info_of (runNoSkip (runSkip [(1, .conforming alice)] 1).kv 1).kv 1 = .ok alice := by
  exact (skip_counter_spec [(1, .conforming alice)] 1 alice (by rfl) (by decide)).2.2.2.1

/-- Claim C5: `/login` with failing portal authentication throws
`LoginError` with the store untouched — no record is created or
modified; with successful authentication it unconditionally overwrites
the conversation's record (touching no other key) with the supplied
credentials, the 17:30 default schedule, skip 0, in-campus true, and
the default Beijing-campus address and coordinates — a re-login
therefore resets skip and schedule regardless of prior values. -/
theorem login_spec (auth : String → String → LoginOutcome) (kv : KV) (id : Int)
    (u p text : String) (hsplit : jsSplit ' ' text = ["/login", u, p]) :
    (∀ m, auth u p = .failure m →
       runLogin auth kv id text = ⟨kv, [], [], some (.loginError m)⟩) ∧
    (∀ c, auth u p = .success c →
       (runLogin auth kv id text).err = none ∧
       (runLogin auth kv id text).kv = kvPut kv id (.conforming (loginRecord u p id)) ∧
       info_of (kvPut kv id (.conforming (loginRecord u p id))) id =
         .ok (loginRecord u p id) ∧
       (∀ j, j ≠ id → kvGet (kvPut kv id (.conforming (loginRecord u p id))) j = kvGet kv j) ∧
       loginRecord u p id =
         { username := u, password := p, chat_id := id, hh := 17, mm := 30, skip := 0,
           area := "北京市 海淀区", city := "北京市", province := "北京市",
           address := "北京市海淀区花园路街道北京航空航天大学大运村学生公寓",
           location := { longitude := 116.343699, latitude := 39.977847 },
           in_campus := true }) := by
  have hput : info_of (kvPut kv id (.conforming (loginRecord u p id))) id =
      .ok (loginRecord u p id) :=
    info_of_put_self kv id _ (by rfl) (by rfl)
  constructor
  · intro m hm
    simp only [runLogin, hsplit, hm]
  · intro c hc
    have hrl : runLogin auth kv id text =
        ⟨kvPut kv id (.conforming (loginRecord u p id)),
         [.record (loginRecord u p id).chat_id (loginRecord u p id)], [], none⟩ := by
      simp only [runLogin, hsplit, hc]
      simp [afterPut, check_with_user, hput, Except.map]
    refine ⟨by rw [hrl], by rw [hrl], hput, ?_, rfl⟩
    intro j hj
    exact kvGet_put_ne kv id j _ (fun he => hj he.symm)

/-- Witness for `login_spec`: a successful `/login alice pw` on an
empty store creates the default record for conversation 7. -/
theorem login_spec_witness :
    (runLogin (fun _ _ => .success "cookie") [] 7 "/login alice pw").err = none ∧
    (runLogin (fun _ _ => .success "cookie") [] 7 "/login alice pw").kv =
      kvPut [] 7 (.conforming (loginRecord "alice" "pw" 7)) := by
  have h := (login_spec (fun _ _ => .success "cookie") [] 7 "alice" "pw" "/login alice pw"
    (by rfl)).2 "cookie" (by rfl)
  exact ⟨h.1, h.2.1⟩

/-- Claim C7: `/delete` removes the conversation's record idempotently
(no error on an absent record), after which the handler's
unconditional `check_with_user` echo fails with `UserNotFound`; the
catch boundary converts it into a single "does not exist" notification
and the generic error acknowledgement instead of propagating it. -/
theorem delete_spec (kv : KV) (id : Int) :
    finalize id (runDelete kv id) =
      ⟨kvDelete kv id, [.text id ("User " ++ toString id ++ " does not exist")], [],
       "end with error"⟩ ∧
    kvGet (finalize id (runDelete kv id)).kv id = none ∧
    check_with_user (kvDelete kv id) id = .error (.userNotFound id) := by
  have hnf : info_of (kvDelete kv id) id = .error (.userNotFound id) := by
    simp [info_of, kvGet_delete_self]
  have hcw : check_with_user (kvDelete kv id) id = .error (.userNotFound id) := by
    simp [check_with_user, hnf, Except.map]
  have hrd : runDelete kv id = ⟨kvDelete kv id, [], [], some (.userNotFound id)⟩ := by
    simp only [runDelete, hcw]
  refine ⟨?_, ?_, hcw⟩
  · rw [hrd]
    simp [finalize, handledErr, errNotes]
  · rw [hrd]
    simp [finalize, handledErr, kvGet_delete_self]

/-- Claim C8: an inbound location message on an existing record stores
the geocoder's province and formatted address, sets `area` to
`city ++ " " ++ district`, stores the coordinates verbatim, and derives
`city` from the response's ambiguous field: the string itself when it
is a plain string, the province otherwise (e.g. when it is an empty
list). -/
theorem location_update_spec (kv : KV) (id : Int) (info : UserInfo) (g : GaodeRegeo)
    (loc : Location) (hinfo : info_of kv id = .ok info) :
    (runLocation (.ok g) kv id loc).err = none ∧
    info_of (runLocation (.ok g) kv id loc).kv id =
      .ok { info with
            city := gaodeCity g
            province := g.province
            area := gaodeCity g ++ " " ++ g.district
            address := g.formatted_address
            location := loc } ∧
    (∀ s, g.city = .str s → gaodeCity g = s) ∧
    (∀ l, g.city = .arr l → gaodeCity g = g.province) := by
  obtain ⟨hget, hvh, hvm⟩ := info_of_ok kv id info hinfo
  have hput : info_of (kvPut kv id (.conforming
      { info with
        city := gaodeCity g
        province := g.province
        area := gaodeCity g ++ " " ++ g.district
        address := g.formatted_address
        location := loc })) id =
      .ok { info with
            city := gaodeCity g
            province := g.province
            area := gaodeCity g ++ " " ++ g.district
            address := g.formatted_address
            location := loc } := info_of_put_self kv id _ hvh hvm
  have hrl : runLocation (.ok g) kv id loc =
      ⟨kvPut kv id (.conforming
        { info with
          city := gaodeCity g
          province := g.province
          area := gaodeCity g ++ " " ++ g.district
          address := g.formatted_address
          location := loc }),
       [.record info.chat_id
         { info with
           city := gaodeCity g
           province := g.province
           area := gaodeCity g ++ " " ++ g.district
           address := g.formatted_address
           location := loc }], [], none⟩ := by
    simp only [runLocation, hinfo]
    simp [afterPut, check_with_user, hput, Except.map]
  refine ⟨by rw [hrl], by rw [hrl]; exact hput, ?_, ?_⟩
  · intro s hs
    simp [gaodeCity, hs]
  · intro l hl
    simp [gaodeCity, hl]

/-- Witness for `location_update_spec`: a geocode response whose city
field is the empty list stores the province as the city. -/
theorem location_update_spec_witness :
    info_of (runLocation (.ok ⟨"fa", "prov", .arr [], "dist"⟩)
        [(1, .conforming alice)] 1 ⟨5, 6⟩).kv 1 =
      .ok { alice with
            city := "prov", province := "prov", area := "prov dist",
            address := "fa", location := ⟨5, 6⟩ } := by
  have h := (location_update_spec [(1, .conforming alice)] 1 alice
    ⟨"fa", "prov", .arr [], "dist"⟩ ⟨5, 6⟩ (by rfl)).2.1
  exact h.trans (by rfl)

/-- Helper: when `/checkin_at` on an existing record runs without an
error, it went through the success path, writing back the fetched
record with some decoded (hence codec-valid) hour/minute pair. -/
theorem runCheckinAt_err_none (kv : KV) (id : Int) (info : UserInfo) (text : String)
    (hinfo : info_of kv id = .ok info)
    (herr : (runCheckinAt kv id text).err = none) :
    ∃ h m, runCheckinAt kv id text =
        ⟨kvPut kv id (.conforming { info with hh := h, mm := m }),
         [.record info.chat_id { info with hh := h, mm := m }], [], none⟩ ∧
      validHH h = true ∧ validMM m = true := by
  rcases hsp : jsSplit ' ' text with _ | ⟨w, _ | ⟨arg, _ | ⟨x, t⟩⟩⟩
  · have hr : runCheckinAt kv id text = ⟨kv, [], [], some (.wrongCommand text)⟩ := by
      unfold runCheckinAt; simp only [hsp]
    rw [hr] at herr; simp at herr
  · have hr : runCheckinAt kv id text = ⟨kv, [], [], some (.wrongCommand text)⟩ := by
      unfold runCheckinAt; simp only [hsp]
    rw [hr] at herr; simp at herr
  · rcases hp : jsSplit ':' arg with _ | ⟨p0, _ | ⟨p1, _ | ⟨y, t2⟩⟩⟩
    · have hr : runCheckinAt kv id text = ⟨kv, [], [], some (.wrongCheckinTime arg)⟩ := by
        unfold runCheckinAt; simp only [hsp, hp]
      rw [hr] at herr; simp at herr
    · have hr : runCheckinAt kv id text = ⟨kv, [], [], some (.wrongCheckinTime arg)⟩ := by
        unfold runCheckinAt; simp only [hsp, hp]
      rw [hr] at herr; simp at herr
    · rcases hh : decode_checkin_hh (jsToNumber p0) with _ | h
      · have hr : runCheckinAt kv id text = ⟨kv, [], [], some (.wrongCheckinTime arg)⟩ := by
          unfold runCheckinAt; simp only [hsp, hp, hh]
        rw [hr] at herr; simp at herr
      · rcases hm : decode_checkin_mm (jsToNumber p1) with _ | m
        · have hr : runCheckinAt kv id text = ⟨kv, [], [], some (.wrongCheckinTime arg)⟩ := by
            unfold runCheckinAt; simp only [hsp, hp, hh, hm]
          rw [hr] at herr; simp at herr
        · have hvh := (decode_checkin_hh_valid _ _ hh).1
          have hvm := (decode_checkin_mm_valid _ _ hm).1
          have hput : info_of (kvPut kv id (.conforming { info with hh := h, mm := m })) id =
              .ok { info with hh := h, mm := m } := info_of_put_self kv id _ hvh hvm
          refine ⟨h, m, ?_, hvh, hvm⟩
          unfold runCheckinAt
          simp only [hsp, hp, hh, hm, hinfo]
          simp [afterPut, check_with_user, hput, Except.map]
    · have hr : runCheckinAt kv id text = ⟨kv, [], [], some (.wrongCheckinTime arg)⟩ := by
        unfold runCheckinAt; simp only [hsp, hp]
      rw [hr] at herr; simp at herr
  · have hr : runCheckinAt kv id text = ⟨kv, [], [], some (.wrongCommand text)⟩ := by
      unfold runCheckinAt; simp only [hsp]
    rw [hr] at herr; simp at herr

/-- Claim C9: each single-field mutation command on an existing record is
a read-modify-write of the full record that changes only its target
fields: the record stored afterwards equals the prior record with only
`skip` (for `/skip`, `/no_skip`), only `in_campus` (for `/in_campus`,
`/out_of_campus`), or only `hh`/`mm` (for a succeeding `/checkin_at`)
replaced — every other field, credentials, chat id, location fields and
coordinates included, keeps its prior stored value. -/
theorem single_field_frame (kv : KV) (id : Int) (info : UserInfo)
    (hinfo : info_of kv id = .ok info) :
    ((runSkip kv id).err = none ∧
      ∃ s, info_of (runSkip kv id).kv id = .ok { info with skip := s }) ∧
    ((runNoSkip kv id).err = none ∧
      ∃ s, info_of (runNoSkip kv id).kv id = .ok { info with skip := s }) ∧
    ((runInCampus kv id).err = none ∧
      ∃ b, info_of (runInCampus kv id).kv id = .ok { info with in_campus := b }) ∧
    ((runOutOfCampus kv id).err = none ∧
      ∃ b, info_of (runOutOfCampus kv id).kv id = .ok { info with in_campus := b }) ∧
    (∀ text, (runCheckinAt kv id text).err = none →
      ∃ a b, info_of (runCheckinAt kv id text).kv id = .ok { info with hh := a, mm := b }) := by
  obtain ⟨hget, hvh, hvm⟩ := info_of_ok kv id info hinfo
  refine ⟨?_, ?_, ?_, ?_, ?_⟩
  · have hput : info_of (kvPut kv id (.conforming { info with skip := info.skip + 1 })) id =
        .ok { info with skip := info.skip + 1 } := info_of_put_self kv id _ hvh hvm
    have hr : runSkip kv id =
        ⟨kvPut kv id (.conforming { info with skip := info.skip + 1 }),
         [.record info.chat_id { info with skip := info.skip + 1 }], [], none⟩ := by
      simp only [runSkip, hinfo]
      simp [afterPut, check_with_user, hput, Except.map]
    exact ⟨by rw [hr], info.skip + 1, by rw [hr]; exact hput⟩
  · by_cases hp : 0 < info.skip
    · have hput : info_of (kvPut kv id (.conforming { info with skip := info.skip - 1 })) id =
          .ok { info with skip := info.skip - 1 } := info_of_put_self kv id _ hvh hvm
      have hr : runNoSkip kv id =
          ⟨kvPut kv id (.conforming { info with skip := info.skip - 1 }),
           [.record info.chat_id { info with skip := info.skip - 1 }], [], none⟩ := by
        simp only [runNoSkip, hinfo, if_pos hp]
        simp [afterPut, check_with_user, hput, Except.map]
      exact ⟨by rw [hr], info.skip - 1, by rw [hr]; exact hput⟩
    · have hput : info_of (kvPut kv id (.conforming info)) id = .ok info :=
        info_of_put_self kv id info hvh hvm
      have hr : runNoSkip kv id =
          ⟨kvPut kv id (.conforming info), [.record info.chat_id info], [], none⟩ := by
        simp only [runNoSkip, hinfo, if_neg hp]
        simp [afterPut, check_with_user, hput, Except.map]
      exact ⟨by rw [hr], info.skip, by rw [hr]; exact hput⟩
  · have hput : info_of (kvPut kv id (.conforming { info with in_campus := true })) id =
        .ok { info with in_campus := true } := info_of_put_self kv id _ hvh hvm
    have hr : runInCampus kv id =
        ⟨kvPut kv id (.conforming { info with in_campus := true }),
         [.record info.chat_id { info with in_campus := true }], [], none⟩ := by
      simp only [runInCampus, hinfo]
      simp [afterPut, check_with_user, hput, Except.map]
    exact ⟨by rw [hr], true, by rw [hr]; exact hput⟩
  · have hput : info_of (kvPut kv id (.conforming { info with in_campus := false })) id =
        .ok { info with in_campus := false } := info_of_put_self kv id _ hvh hvm
    have hr : runOutOfCampus kv id =
        ⟨kvPut kv id (.conforming { info with in_campus := false }),
         [.record info.chat_id { info with in_campus := false }], [], none⟩ := by
      simp only [runOutOfCampus, hinfo]
      simp [afterPut, check_with_user, hput, Except.map]
    exact ⟨by rw [hr], false, by rw [hr]; exact hput⟩
  · intro text herr
    obtain ⟨a, b, hr, hva, hvb⟩ := runCheckinAt_err_none kv id info text hinfo herr
    exact ⟨a, b, by rw [hr]; exact info_of_put_self kv id _ hva hvb⟩

/-- Witness for `single_field_frame`: `/out_of_campus` on the sample
record flips only the campus flag. -/
theorem single_field_frame_witness :
    (runOutOfCampus [(1, .conforming alice)] 1).err = none ∧
    ∃ b, info_of (runOutOfCampus [(1, .conforming alice)] 1).kv 1 =
      .ok { alice with in_campus := b } :=
  (single_field_frame [(1, .conforming alice)] 1 alice (by rfl)).2.2.2.1

/-- Helper: once a key whose record fails `info_of` is in the remaining
enumeration list, the enumeration can never run to completion — no put
performed by the sweep touches that key, because a put at a key
requires a successful fetch there first. -/
theorem sweepEnum_not_done (cur : Int) (id : Int) (e : Err) :
    ∀ (ids : List Int) (st : SweepState), info_of st.kv id = .error e → id ∈ ids →
      ∀ st', sweepEnum cur st ids ≠ .done st' := by
  intro ids
  induction ids with
  | nil =>
    intro st h hmem
    simp at hmem
  | cons a rest ih =>
    intro st h hmem st'
    by_cases ha : a = id
    · subst ha
      simp only [sweepEnum, h]
      unfold sweepAbort
      cases e <;> simp
    · have hmem' : id ∈ rest := by
        rcases List.mem_cons.mp hmem with h1 | h1
        · exact absurd h1.symm ha
        · exact h1
      simp only [sweepEnum]
      split
      next e' heq =>
        unfold sweepAbort
        cases e' <;> simp
      next info heq =>
        by_cases hgt : (expected_minutes info - cur).natAbs > 10
        · rw [if_pos hgt]
          exact ih st h hmem' st'
        · rw [if_neg hgt]
          by_cases hskip : 0 < info.skip
          · rw [if_pos hskip]
            have hne : info_of (kvPut st.kv a
                (.conforming { info with skip := info.skip - 1 })) id = .error e := by
              rw [info_of_put_ne st.kv a id _ ha]
              exact h
            split
            next e' heq2 =>
              unfold sweepAbort
              cases e' <;> simp
            next n heq2 =>
              exact ih _ hne hmem' st'
          · rw [if_neg hskip]
            exact ih { kv := st.kv, msgs := st.msgs, users := st.users ++ [info] } h hmem' st'

/-- Claim C6: if, during the sweep's enumeration, a key's record is
missing (`UserNotFound`) or fails schema validation
(`InvalidUserInfo`), the whole sweep aborts at that key: the loop body
returns or rethrows per the catch at src/index.ts:287-293 with the
state exactly as it was (so the bad record is never silently skipped —
the result does not even depend on the keys that would have followed),
and the sweep run performs no check-in at all, for any user. -/
theorem sweep_fail_fast (cur : Int) (id : Int) (e : Err) :
    (∀ st rest, info_of st.kv id = .error e →
       sweepEnum cur st (id :: rest) = sweepAbort e st) ∧
    (∀ st rest rest', info_of st.kv id = .error e →
       sweepEnum cur st (id :: rest) = sweepEnum cur st (id :: rest')) ∧
    (∀ kv, id ∈ kvKeys kv → info_of kv id = .error e →
       (do_scheduled cur kv).checkins = []) := by
  have habort : ∀ st (rest : List Int), info_of st.kv id = .error e →
      sweepEnum cur st (id :: rest) = sweepAbort e st := by
    intro st rest h
    simp only [sweepEnum, h]
  refine ⟨habort, ?_, ?_⟩
  · intro st rest rest' h
    rw [habort st rest h, habort st rest' h]
  · intro kv hmem h
    cases hs : sweepEnum cur ⟨kv, [], []⟩ (kvKeys kv) with
    | done st =>
      exact absurd hs (sweepEnum_not_done cur id e (kvKeys kv) ⟨kv, [], []⟩ h hmem st)
    | earlyRet st => simp [do_scheduled, hs]
    | thrown e' st => simp [do_scheduled, hs]

/-- Witness for `sweep_fail_fast`: a store holding one malformed record
makes the sweep check nobody in. -/
theorem sweep_fail_fast_witness :
    (do_scheduled 0 [(5, .malformed)]).checkins = [] :=
  (sweep_fail_fast 0 5 .invalidUserInfo).2.2 [(5, .malformed)] (by decide) (by rfl)

/-! ### The `chat_id = key id` invariant -/

/-- Every decodable record in the store carries, in its `chat_id`
field, exactly the numeric id of the `user:<id>` key it is stored
under. -/
def chatIdConsistent (kv : KV) : Prop :=
  ∀ id info, kvGet kv id = some (.conforming info) → info.chat_id = id

theorem afterPut_kv (kv : KV) (id : Int) : (afterPut kv id).kv = kv := by
  unfold afterPut
  split <;> rfl

theorem chatIdConsistent_put (kv : KV) (id : Int) (i : UserInfo)
    (h : chatIdConsistent kv) (hc : i.chat_id = id) :
    chatIdConsistent (kvPut kv id (.conforming i)) := by
  intro j info hj
  by_cases hij : id = j
  · subst hij
    rw [kvGet_put_self] at hj
    simp only [Option.some.injEq, StoredVal.conforming.injEq] at hj
    rw [← hj]
    exact hc
  · rw [kvGet_put_ne kv id j _ hij] at hj
    exact h j info hj

theorem chatIdConsistent_delete (kv : KV) (id : Int) (h : chatIdConsistent kv) :
    chatIdConsistent (kvDelete kv id) := by
  intro j info hj
  by_cases hij : id = j
  · subst hij
    rw [kvGet_delete_self] at hj
    cases hj
  · rw [kvGet_delete_ne kv id j hij] at hj
    exact h j info hj

/-- A read-modify-write that keeps the fetched record's `chat_id`
preserves the invariant. -/
theorem consistent_update (kv : KV) (id : Int) (info : UserInfo)
    (h : chatIdConsistent kv) (hinfo : info_of kv id = .ok info)
    (i : UserInfo) (hc : i.chat_id = info.chat_id) :
    chatIdConsistent (kvPut kv id (.conforming i)) :=
  chatIdConsistent_put kv id i h
    (hc.trans (h id info (info_of_ok kv id info hinfo).1))

theorem runInfo_kv (a b : Int) (kv : KV) (id : Int) : (runInfo a b kv id).kv = kv := by
  unfold runInfo
  split <;> rfl

theorem runCheckin_kv (kv : KV) (id : Int) : (runCheckin kv id).kv = kv := by
  unfold runCheckin
  split <;> rfl

theorem runDelete_kv (kv : KV) (id : Int) : (runDelete kv id).kv = kvDelete kv id := by
  simp only [runDelete]
  split <;> rfl

theorem runLogin_consistent (auth : String → String → LoginOutcome) (kv : KV)
    (id : Int) (text : String) (h : chatIdConsistent kv) :
    chatIdConsistent (runLogin auth kv id text).kv := by
  unfold runLogin
  split
  next w u p heq =>
    split
    next m hauth => exact h
    next c hauth =>
      rw [afterPut_kv]
      exact chatIdConsistent_put kv id _ h rfl
  next heq => exact h

theorem runSkip_consistent (kv : KV) (id : Int) (h : chatIdConsistent kv) :
    chatIdConsistent (runSkip kv id).kv := by
  unfold runSkip
  split
  next e heq => exact h
  next info heq =>
    rw [afterPut_kv]
    exact consistent_update kv id info h heq _ rfl

theorem runNoSkip_consistent (kv : KV) (id : Int) (h : chatIdConsistent kv) :
    chatIdConsistent (runNoSkip kv id).kv := by
  unfold runNoSkip
  split
  next e heq => exact h
  next info heq =>
    rw [afterPut_kv]
    exact consistent_update kv id info h heq _ (by split <;> rfl)

theorem runInCampus_consistent (kv : KV) (id : Int) (h : chatIdConsistent kv) :
    chatIdConsistent (runInCampus kv id).kv := by
  unfold runInCampus
  split
  next e heq => exact h
  next info heq =>
    rw [afterPut_kv]
    exact consistent_update kv id info h heq _ rfl

theorem runOutOfCampus_consistent (kv : KV) (id : Int) (h : chatIdConsistent kv) :
    chatIdConsistent (runOutOfCampus kv id).kv := by
  unfold runOutOfCampus
  split
  next e heq => exact h
  next info heq =>
    rw [afterPut_kv]
    exact consistent_update kv id info h heq _ rfl

theorem runCheckinAt_consistent (kv : KV) (id : Int) (text : String)
    (h : chatIdConsistent kv) : chatIdConsistent (runCheckinAt kv id text).kv := by
  unfold runCheckinAt
  split
  next w arg heq =>
    split
    next p0 p1 heq2 =>
      split
      next a b hha hmb =>
        split
        next e heq3 => exact h
        next info heq3 =>
          rw [afterPut_kv]
          exact consistent_update kv id info h heq3 _ rfl
      next x y hxy => exact h
    next heq2 => exact h
  next heq => exact h

theorem runLocation_consistent (geo : GaodeOutcome) (kv : KV) (id : Int)
    (loc : Location) (h : chatIdConsistent kv) :
    chatIdConsistent (runLocation geo kv id loc).kv := by
  unfold runLocation
  split
  next => exact h
  next g =>
    split
    next e heq => exact h
    next info heq =>
      rw [afterPut_kv]
      exact consistent_update kv id info h heq _ rfl

/-- The state carried by an enumeration outcome. -/
def EnumOutcome.sweepState : EnumOutcome → SweepState
  | .done st => st
  | .earlyRet st => st
  | .thrown _ st => st

theorem sweepAbort_sweepState (e : Err) (st : SweepState) :
    (sweepAbort e st).sweepState = st := by
  unfold sweepAbort
  cases e <;> rfl

theorem sweepEnum_consistent (cur : Int) :
    ∀ (ids : List Int) (st : SweepState), chatIdConsistent st.kv →
      chatIdConsistent ((sweepEnum cur st ids).sweepState).kv := by
  intro ids
  induction ids with
  | nil =>
    intro st h
    exact h
  | cons a rest ih =>
    intro st h
    simp only [sweepEnum]
    split
    next e heq =>
      rw [sweepAbort_sweepState]
      exact h
    next info heq =>
      by_cases hgt : (expected_minutes info - cur).natAbs > 10
      · rw [if_pos hgt]
        exact ih st h
      · rw [if_neg hgt]
        by_cases hskip : 0 < info.skip
        · rw [if_pos hskip]
          have hkv' : chatIdConsistent
              (kvPut st.kv a (.conforming { info with skip := info.skip - 1 })) :=
            consistent_update st.kv a info h heq _ rfl
          split
          next e heq2 =>
            rw [sweepAbort_sweepState]
            exact hkv'
          next n heq2 => exact ih _ hkv'
        · rw [if_neg hskip]
          exact ih { kv := st.kv, msgs := st.msgs, users := st.users ++ [info] } h

theorem do_scheduled_consistent (cur : Int) (kv : KV) (h : chatIdConsistent kv) :
    chatIdConsistent (do_scheduled cur kv).kv := by
  unfold do_scheduled
  split
  next st hs =>
    have hc := sweepEnum_consistent cur (kvKeys kv) ⟨kv, [], []⟩ h
    rw [hs] at hc
    exact hc
  next st hs =>
    have hc := sweepEnum_consistent cur (kvKeys kv) ⟨kv, [], []⟩ h
    rw [hs] at hc
    exact hc
  next e st hs =>
    have hc := sweepEnum_consistent cur (kvKeys kv) ⟨kv, [], []⟩ h
    rw [hs] at hc
    exact hc

set_option maxHeartbeats 1000000 in
theorem handle_text_consistent (ext : Ext) (kv : KV) (id : Int) (text : String)
    (h : chatIdConsistent kv) : chatIdConsistent (handle_text ext kv id text).kv := by
  unfold handle_text
  by_cases h1 : text.startsWith "/start" = true
  · rw [if_pos h1]
    exact h
  rw [if_neg h1]
  by_cases h2 : text.startsWith "/login " = true
  · rw [if_pos h2]
    exact runLogin_consistent ext.auth kv id text h
  rw [if_neg h2]
  by_cases h3 : text.startsWith "/checkin_at " = true
  · rw [if_pos h3]
    exact runCheckinAt_consistent kv id text h
  rw [if_neg h3]
  by_cases h4 : text.startsWith "/info" = true
  · rw [if_pos h4, runInfo_kv]
    exact h
  rw [if_neg h4]
  by_cases h5 : text.startsWith "/skip" = true
  · rw [if_pos h5]
    exact runSkip_consistent kv id h
  rw [if_neg h5]
  by_cases h6 : text.startsWith "/no_skip" = true
  · rw [if_pos h6]
    exact runNoSkip_consistent kv id h
  rw [if_neg h6]
  by_cases h7 : text.startsWith "/checkin" = true
  · rw [if_pos h7, runCheckin_kv]
    exact h
  rw [if_neg h7]
  by_cases h8 : text.startsWith "/delete" = true
  · rw [if_pos h8, runDelete_kv]
    exact chatIdConsistent_delete kv id h
  rw [if_neg h8]
  by_cases h9 : text.startsWith "/in_campus" = true
  · rw [if_pos h9]
    exact runInCampus_consistent kv id h
  rw [if_neg h9]
  by_cases h10 : text.startsWith "/out_of_campus" = true
  · rw [if_pos h10]
    exact runOutOfCampus_consistent kv id h
  rw [if_neg h10]
  by_cases h11 : text.startsWith "/schedule" = true
  · rw [if_pos h11]
    exact do_scheduled_consistent (ext.nowH * 60 + ext.nowM) kv h
  rw [if_neg h11]
  exact h

/-- Claim C10: for every store reachable by the program's own operations,
a record's `chat_id` equals the numeric id in its `user:<id>` key:
`/login` writes a record whose `chat_id` is the key id, every text
command, location update and sweep preserves the property, and
consequently the sweep's re-fetch of a just-skipped user by its
`chat_id` (`check_with_user(env, info.chat_id)`, src/index.ts:284)
resolves to exactly the record it just persisted. -/
theorem chat_id_key_invariant :
    (∀ (u p : String) (id : Int), (loginRecord u p id).chat_id = id) ∧
    (∀ ext kv id text, chatIdConsistent kv →
       chatIdConsistent (handle_text ext kv id text).kv) ∧
    (∀ geo kv id loc, chatIdConsistent kv →
       chatIdConsistent (runLocation geo kv id loc).kv) ∧
    (∀ cur kv, chatIdConsistent kv → chatIdConsistent (do_scheduled cur kv).kv) ∧
    (∀ kv id info, chatIdConsistent kv → info_of kv id = .ok info →
       info.chat_id = id ∧
       info_of (kvPut kv id (.conforming { info with skip := info.skip - 1 }))
           info.chat_id = .ok { info with skip := info.skip - 1 }) := by
  refine ⟨fun u p id => rfl, handle_text_consistent, runLocation_consistent,
    do_scheduled_consistent, ?_⟩
  intro kv id info h hinfo
  obtain ⟨hget, hvh, hvm⟩ := info_of_ok kv id info hinfo
  have hcid : info.chat_id = id := h id info hget
  refine ⟨hcid, ?_⟩
  rw [hcid]
  exact info_of_put_self kv id _ hvh hvm

/-- Witness for `chat_id_key_invariant`: on a consistent one-record
store the sweep's re-fetch key (the record's `chat_id`) resolves to
the freshly decremented record. -/
theorem chat_id_key_invariant_witness :
    info_of (kvPut [(1, .conforming alice)] 1
        (.conforming { alice with skip := alice.skip - 1 })) alice.chat_id =
      .ok { alice with skip := alice.skip - 1 } := by
  have hcons : chatIdConsistent [(1, .conforming alice)] := by
    intro j info hj
    by_cases hij : (1 : Int) = j
    · subst hij
      simp [kvGet] at hj
      rw [← hj]
      rfl
    · simp [kvGet, hij] at hj
  exact (chat_id_key_invariant.2.2.2.2 [(1, .conforming alice)] 1 alice hcons (by rfl)).2

end Buaa
